import Mathlib

/-!
Shallow embedding of the automated Git merge-conflict resolution scripts:

* `src/unnamed/part_000` — the main (AI-plus-fallback) pipeline; its entry
  point is modelled by `mainRun`.
* `src/extra/resolve-conflict.js` — the non-AI-report variant; its entry
  point is modelled by `extraMain`.

External effects (shell command execution, file reads and writes, the
completion-service HTTP call, the review-platform HTTP call) are supplied
by an `Env` of oracles.  Each oracle returns either a value or a thrown
exception (`Except String`), matching single-attempt JavaScript try/catch.
Every modelled operation also produces a trace of `Event`s recording the
external calls it made, so that claims about which effects occur (or never
occur) are statable.
-/

/-- The shell commands the scripts invoke, in structured form.
`GitCmd.render` produces the exact command string built by the source. -/
inductive GitCmd where
  | listUnmerged
  | checkoutOurs (path : String)
  | add (path : String)
  | diffCached (path : String)
  | commit
  deriving DecidableEq

/-- The exact command string the source passes to `execSync`. -/
def GitCmd.render : GitCmd → String
  | .listUnmerged => "git diff --name-only --diff-filter=U"
  | .checkoutOurs p => "git checkout --ours " ++ p
  | .add p => "git add " ++ p
  | .diffCached p => "git diff --cached " ++ p
  | .commit => "git commit -m \x27Auto-resolved conflicts with AI assistance or traditional methods\x27"

/-- External calls made during a run. `log` records the console messages the
claims refer to. -/
inductive Event where
  | exec (cmd : GitCmd)
  | fsRead (path : String)
  | aiRequest (prompt : String)
  | fsWrite (path : String)
  | prComment (body : String)
  | log (msg : String)
  deriving DecidableEq

/-- Oracles for the external world.  `execResult cmd` is the behaviour of
`execSync cmd`: `.ok out` is the raw stdout, `.error e` a thrown error.
`openaiKey`/`githubToken` model the environment variables (`none` = unset).
`useAI` models `USE_AI === "true"`. -/
structure Env where
  useAI : Bool
  openaiKey : Option String
  githubToken : Option String
  execResult : String → Except String String
  readFileResult : String → Except String String
  aiCompleteResult : String → Except String String
  writeFileResult : String → String → Except String Unit
  postCommentResult : String → Except String Unit

/-- JavaScript truthiness of a string: the empty string is falsy. -/
def jsTruthy (s : String) : Bool := s != ""

/-- Whitespace characters removed by JavaScript `trim`. -/
def isWhitespaceChar (c : Char) : Bool :=
  c == '\x20' || c == '\t' || c == '\n' || c == '\r'

/-- Drops whitespace from both ends of a character list. -/
def trimChars (l : List Char) : List Char :=
  ((l.dropWhile isWhitespaceChar).reverse.dropWhile isWhitespaceChar).reverse

/-- The `trim()` applied to command output (kernel-reducible rendition of
string trimming). -/
def jsTrim (s : String) : String := String.mk (trimChars s.data)

/-- Helper for `jsSplitNewline`: accumulates the current segment in
reverse. -/
def splitLinesAux : List Char → List Char → List String
  | [], acc => [String.mk acc.reverse]
  | c :: rest, acc =>
    if c = '\n' then String.mk acc.reverse :: splitLinesAux rest []
    else splitLinesAux rest (c :: acc)

/-- JavaScript `split("\n")`: cuts the string at every newline character. -/
def jsSplitNewline (s : String) : List String := splitLinesAux s.data []

/-- Truthiness of a possibly-unset environment variable. -/
def jsTruthyOpt : Option String → Bool
  | none => false
  | some s => jsTruthy s

/-- `runCommand` (part_000 lines 19-26): runs `execSync` and trims the
output; a thrown error is caught and `null` (here `none`) is returned, so
`runCommand` itself never throws. -/
def runCommand (env : Env) (c : GitCmd) : Option String × List Event :=
  match env.execResult c.render with
  | .ok out => (some (jsTrim out), [.exec c])
  | .error _ => (none, [.exec c])

/-- `getConflictedFiles` (part_000 lines 34-38): splits the command output on
newlines; a `null` (failed command) or falsy (empty) output yields `[]`. -/
def getConflictedFiles (env : Env) : List String × List Event :=
  (match (runCommand env .listUnmerged).1 with
    | some s => if jsTruthy s then jsSplitNewline s else []
    | none => [], (runCommand env .listUnmerged).2)

/-- The prompt string built by `resolveWithAI` from the file content. -/
def aiPrompt (fileContent : String) : String :=
  "You are a code assistant. Resolve the following Git merge conflict:\n\n" ++ fileContent

/-- `resolveWithAI` (part_000 lines 47-67): reads the file (may throw),
posts the completion request (may throw), and returns the completion text. -/
def resolveWithAI (env : Env) (filePath : String) : Except String String × List Event :=
  match env.readFileResult filePath with
  | .error e => (.error e, [.fsRead filePath])
  | .ok content =>
    match env.aiCompleteResult (aiPrompt content) with
    | .error e => (.error e, [.fsRead filePath, .aiRequest (aiPrompt content)])
    | .ok text => (.ok text, [.fsRead filePath, .aiRequest (aiPrompt content)])

/-- `resolveManually` (part_000 lines 76-91): runs checkout-ours and add via
`runCommand`.  `runCommand` catches all errors internally, so the body of
the try block cannot throw and the function always returns `true`; the
catch branch returning `false` is unreachable. -/
def resolveManually (env : Env) (filePath : String) : Bool × List Event :=
  (true, (runCommand env (.checkoutOurs filePath)).2 ++ (runCommand env (.add filePath)).2)

/-- `getFileDiff` (part_000 lines 99-106): `runCommand` never throws, so the
surrounding try/catch is inert and the result is just the command output. -/
def getFileDiff (env : Env) (filePath : String) : Option String × List Event :=
  runCommand env (.diffCached filePath)

/-- `postCommentToPR` (part_000 lines 115-132): posts the comment; a thrown
error is caught and logged (with the typo of the source), so the function
never propagates an exception.  Returns only the events it produced. -/
def postCommentToPR (env : Env) (commentBody : String) : List Event :=
  match env.postCommentResult commentBody with
  | .ok _ => [.prComment commentBody, .log "Comment posted to PR."]
  | .error e => [.prComment commentBody, .log ("Error postig comment to PR: " ++ e)]

/-- Outcome of the per-file resolution loop body for one file. -/
inductive FileResult where
  | aiSuccess
  | oursSuccess
  | oursFailure
  | errorCaught (msg : String)
  deriving DecidableEq

/-- Whether the outcome puts the file in the success section of the report. -/
def FileResult.isSuccess : FileResult → Bool
  | .aiSuccess => true
  | .oursSuccess => true
  | .oursFailure => false
  | .errorCaught _ => false

/-- One iteration of the resolution loop: the outcome, the text appended to
`successComment`, the text appended to `failureComment`, and the events. -/
structure FileStep where
  outcome : FileResult
  succAppend : String
  failAppend : String
  events : List Event
  deriving DecidableEq

/-- The collapsed-diff detail block appended to `successComment`
(part_000 line 196). -/
def diffDetail (file diff : String) : String :=
  "<details><summary>Diff for `" ++ file ++ "`</summary>\n\n```diff\n" ++ diff
    ++ "\n```\n</details>\n\n"

/-- Renders the optional diff detail for a file (part_000 lines 194-197):
appended only when the diff is neither `null` nor falsy. -/
def diffDetailOf (env : Env) (file : String) : String × List Event :=
  (match (getFileDiff env file).1 with
    | some d => if jsTruthy d then diffDetail file d else ""
    | none => "", (getFileDiff env file).2)

/-- The fallback part of the loop body (part_000 lines 185-197): runs
`resolveManually`, appends the corresponding report entry, then appends the
diff detail.  `evPrev` carries events of an AI attempt made earlier in the
same iteration. -/
def fallbackStep (env : Env) (file : String) (evPrev : List Event) : FileStep :=
  if (resolveManually env file).1 then
    { outcome := .oursSuccess
      succAppend := "- `" ++ file ++ "` resolved with \x27ours\x27 strategy.\n"
        ++ (diffDetailOf env file).1
      failAppend := ""
      events := evPrev ++ (resolveManually env file).2 ++ (diffDetailOf env file).2 }
  else
    { outcome := .oursFailure
      succAppend := (diffDetailOf env file).1
      failAppend := "- `" ++ file ++ "` failed to resolve with traditional methods.\n"
      events := evPrev ++ (resolveManually env file).2 ++ (diffDetailOf env file).2 }

/-- The entry appended to `failureComment` when the try block throws
(part_000 line 200). -/
def caughtEntry (file msg : String) : String :=
  "- `" ++ file ++ "` failed due to error: " ++ msg ++ "\n"

/-- The body of the per-file loop (part_000 lines 165-201).  With AI
enabled: a thrown completion call (or file read, or file write) is caught
by the outer catch and recorded as a failure entry — the fallback is NOT
taken; the fallback runs only when the completion call returns falsy
(empty) text without throwing.  With AI disabled the fallback runs
directly.  `runCommand`-based steps cannot throw. -/
def processFile (env : Env) (file : String) : FileStep :=
  if env.useAI then
    match (resolveWithAI env file).1 with
    | .error e =>
      { outcome := .errorCaught e
        succAppend := ""
        failAppend := caughtEntry file e
        events := (resolveWithAI env file).2 }
    | .ok text =>
      if jsTruthy text then
        match env.writeFileResult file text with
        | .error e =>
          { outcome := .errorCaught e
            succAppend := ""
            failAppend := caughtEntry file e
            events := (resolveWithAI env file).2 ++ [.fsWrite file] }
        | .ok _ =>
          { outcome := .aiSuccess
            succAppend := "- `" ++ file ++ "` resolved with AI.\n" ++ (diffDetailOf env file).1
            failAppend := ""
            events := (resolveWithAI env file).2 ++ [.fsWrite file]
              ++ (runCommand env (.add file)).2 ++ (diffDetailOf env file).2 }
      else
        fallbackStep env file (resolveWithAI env file).2
  else
    fallbackStep env file []

/-- Initial value of `successComment` (part_000 line 162). -/
def successHeader : String := "### ✅ Successfully Resolved Files:\n\n"

/-- Initial value of `failureComment` (part_000 line 163). -/
def failureHeader : String := "### ❌ Failed to Resolve Files:\n\n"

/-- Right-nested concatenation of the per-iteration appends; string append
is associative so this equals the left-folded `+=` of the source loop. -/
def concatAll : List String → String
  | [] => ""
  | s :: rest => s ++ concatAll rest

/-- Result of one run of the part_000 pipeline.  `commitRun` records whether
the commit command was invoked (part_000 lines 204-209). -/
structure MainResult where
  exitCode : Nat
  successComment : String
  failureComment : String
  outcomes : List (String × FileResult)
  commitRun : Bool
  trace : List Event
  deriving DecidableEq

/-- The fatal-startup condition of part_000 line 150:
`USE_AI && !OPENAI_API_KEY`. -/
def startupFailed (env : Env) : Bool := env.useAI && !jsTruthyOpt env.openaiKey

/-- `main` of part_000 (lines 149-213) together with the top-level handler
(lines 215-218).  Startup failure exits 1 before any external call; zero
conflicted files logs the no-op message and returns; otherwise each file is
processed in order, a commit is run iff `successComment` changed from its
header, and the report is posted (best-effort).  No exception can escape
the loop or the posting step, so the top-level catch never fires and the
exit code is 0 in the non-startup-failure cases. -/
def mainRun (env : Env) : MainResult :=
  if startupFailed env then
    { exitCode := 1, successComment := "", failureComment := "",
      outcomes := [], commitRun := false, trace := [] }
  else
    let files := (getConflictedFiles env).1
    let ev0 := (getConflictedFiles env).2
    if files.isEmpty then
      { exitCode := 0, successComment := "", failureComment := "",
        outcomes := [], commitRun := false,
        trace := ev0 ++ [.log "No conflicts found."] }
    else
      let successComment := successHeader
        ++ concatAll (files.map fun f => (processFile env f).succAppend)
      let failureComment := failureHeader
        ++ concatAll (files.map fun f => (processFile env f).failAppend)
      let evLoop := (files.map fun f => (processFile env f).events).flatten
      let commitRun : Bool := successComment != successHeader
      let evCommit := if commitRun then (runCommand env .commit).2 else []
      let evPost := postCommentToPR env (successComment ++ "\n" ++ failureComment)
      { exitCode := 0
        successComment := successComment
        failureComment := failureComment
        outcomes := files.map fun f => (f, (processFile env f).outcome)
        commitRun := commitRun
        trace := ev0 ++ evLoop ++ evCommit ++ evPost }

/-- Paths in the success section of the final report. -/
def successPaths (r : MainResult) : List String :=
  (r.outcomes.filter fun p => p.2.isSuccess).map Prod.fst

/-- Paths in the failure section of the final report. -/
def failurePaths (r : MainResult) : List String :=
  (r.outcomes.filter fun p => !p.2.isSuccess).map Prod.fst

/-! The non-AI-report variant, `src/extra/resolve-conflict.js`. -/

/-- Result of one run of the extra variant.  `err` is the error value, if
any, with which `main` rejected (caught by the top-level handler, which
exits 1). -/
structure ExtraResult where
  exitCode : Nat
  err : Option String
  trace : List Event
  deriving DecidableEq

/-- The error that the report-accumulation step of the extra variant would
raise if it were ever executed: inside its loop (resolve-conflict.js lines
106-119) both the try block (line 114) and the catch block (line 117)
append to `commentBody`, but no variable of that name is ever declared —
the declared accumulator (line 104) is named `body`.  That step is in fact
unreachable (see `extraMain`); this string is used only to state that the
error the variant actually exits with is a different one. -/
def refErrMsg : String := "ReferenceError: commentBody is not defined"

/-- The error raised by the first statement of the extra variant.  Unlike
part_000 (which declares OPENAI_API_KEY, GITHUB_TOKEN, PR_NUMBER and
USE_AI from `process.env` at lines 7-10), resolve-conflict.js never
declares OPENAI_API_KEY, GITHUB_TOKEN or PR_NUMBER, so evaluating
`!OPENAI_API_KEY` at line 90 throws a ReferenceError. -/
def extraStartupErr : String := "ReferenceError: OPENAI_API_KEY is not defined"

/-- `main` of resolve-conflict.js (lines 89-124) with its top-level handler
(lines 126-129).  Its first statement, the credential check at line 90,
reads the undeclared identifier OPENAI_API_KEY and throws a ReferenceError
on every run, so `main` rejects before the conflict listing (line 97), the
resolution loop (lines 106-119), the commit (line 121) and the comment
post (line 123); the top-level handler logs the error and exits 1.  No
oracle is ever consulted — the environment argument is unused — and the
trace is empty: no external call of any kind is made.  (The loop that the
crash makes unreachable also references the undeclared `commentBody`, see
`refErrMsg`, and contains no fallback checkout-ours step at all.) -/
def extraMain (_env : Env) : ExtraResult :=
  { exitCode := 1, err := some extraStartupErr, trace := [] }

/-! String helper lemmas. -/

/-- Appending to a string is the identity exactly when the appended string
is empty. -/
theorem string_append_eq_left_iff (s t : String) : s ++ t = s ↔ t = "" := by
  constructor
  · intro h
    have hd := congrArg String.data h
    rw [String.data_append] at hd
    have ht : t.data = [] := by
      have h2 : s.data ++ t.data = s.data ++ [] := by simpa using hd
      exact List.append_cancel_left h2
    exact String.ext ht
  · intro h
    subst h
    apply String.ext
    simp [String.data_append]

/-- A string append is empty exactly when both parts are empty. -/
theorem string_append_eq_empty_iff (s t : String) : s ++ t = "" ↔ s = "" ∧ t = "" := by
  constructor
  · intro h
    have hd := congrArg String.data h
    rw [String.data_append] at hd
    have h2 := List.append_eq_nil.mp (by simpa using hd)
    exact ⟨String.ext h2.1, String.ext h2.2⟩
  · rintro ⟨hs, ht⟩
    subst hs; subst ht
    rfl

/-- `concatAll` is empty exactly when every element is empty. -/
theorem concatAll_eq_empty_iff (l : List String) :
    concatAll l = "" ↔ ∀ s ∈ l, s = "" := by
  induction l with
  | nil => simp [concatAll]
  | cons x xs ih => simp [concatAll, string_append_eq_empty_iff, ih]

/-- A three-fold append whose first component is nonempty is nonempty. -/
theorem string_triple_ne_empty (a f s d : String) (ha : a ≠ "") :
    (a ++ f ++ s ++ d) ≠ "" := by
  intro h
  rcases (string_append_eq_empty_iff _ _).mp h with ⟨h1, _⟩
  rcases (string_append_eq_empty_iff _ _).mp h1 with ⟨h2, _⟩
  rcases (string_append_eq_empty_iff _ _).mp h2 with ⟨h3, _⟩
  exact ha h3

/-! Event classifiers. -/

/-- Whether the event is a completion-service request. -/
def Event.isAiRequest : Event → Bool
  | .aiRequest _ => true
  | _ => false

/-- Whether the event is a fallback (checkout-ours) command invocation. -/
def Event.isFallbackCmd : Event → Bool
  | .exec (.checkoutOurs _) => true
  | _ => false

/-- Whether the event is the commit command invocation. -/
def Event.isCommitCmd : Event → Bool
  | .exec .commit => true
  | _ => false

/-- Whether the event is a review-platform comment post. -/
def Event.isPrPost : Event → Bool
  | .prComment _ => true
  | _ => false

/-! Structural lemmas about the embedded operations. -/

/-- `runCommand` always records exactly the one command it ran. -/
theorem runCommand_events (env : Env) (c : GitCmd) :
    (runCommand env c).2 = [Event.exec c] := by
  unfold runCommand
  cases env.execResult c.render <;> rfl

/-- The fallback step always reports the ours strategy as having succeeded. -/
theorem fallbackStep_outcome (env : Env) (f : String) (ev : List Event) :
    (fallbackStep env f ev).outcome = FileResult.oursSuccess := by
  simp [fallbackStep, resolveManually]

/-- The success entry appended by the fallback step. -/
theorem fallbackStep_succAppend (env : Env) (f : String) (ev : List Event) :
    (fallbackStep env f ev).succAppend
      = "- `" ++ f ++ "` resolved with \x27ours\x27 strategy.\n" ++ (diffDetailOf env f).1 := by
  simp [fallbackStep, resolveManually]

/-- The fallback step never appends a failure entry. -/
theorem fallbackStep_failAppend (env : Env) (f : String) (ev : List Event) :
    (fallbackStep env f ev).failAppend = "" := by
  simp [fallbackStep, resolveManually]

/-- The events of the fallback step: checkout-ours, add, then diff. -/
theorem fallbackStep_events (env : Env) (f : String) (ev : List Event) :
    (fallbackStep env f ev).events
      = ev ++ [Event.exec (.checkoutOurs f), Event.exec (.add f), Event.exec (.diffCached f)] := by
  simp [fallbackStep, resolveManually, diffDetailOf, getFileDiff, runCommand_events]

/-- Every per-file outcome is an AI success, an ours success, or a caught
exception; the ours-failure branch of the source is unreachable because
`resolveManually` always returns true. -/
theorem processFile_outcome_cases (env : Env) (f : String) :
    (processFile env f).outcome = FileResult.aiSuccess ∨
    (processFile env f).outcome = FileResult.oursSuccess ∨
    ∃ e, (processFile env f).outcome = FileResult.errorCaught e := by
  unfold processFile
  by_cases hai : env.useAI
  · simp only [hai, if_true]
    cases h1 : (resolveWithAI env f).1 with
    | error e => exact Or.inr (Or.inr ⟨e, rfl⟩)
    | ok text =>
      by_cases ht : jsTruthy text
      · simp only [ht, if_true]
        cases hw : env.writeFileResult f text with
        | error e => exact Or.inr (Or.inr ⟨e, rfl⟩)
        | ok u => exact Or.inl rfl
      · simp only [ht, if_false]
        exact Or.inr (Or.inl (fallbackStep_outcome env f _))
  · simp only [hai, if_false]
    exact Or.inr (Or.inl (fallbackStep_outcome env f _))

/-- The per-file success append is empty exactly when the outcome is not a
success. -/
theorem processFile_succAppend_empty_iff (env : Env) (f : String) :
    (processFile env f).succAppend = "" ↔ (processFile env f).outcome.isSuccess = false := by
  unfold processFile
  by_cases hai : env.useAI
  · simp only [hai, if_true]
    cases h1 : (resolveWithAI env f).1 with
    | error e => simp [FileResult.isSuccess]
    | ok text =>
      by_cases ht : jsTruthy text
      · simp only [ht, if_true]
        cases hw : env.writeFileResult f text with
        | error e => simp [FileResult.isSuccess]
        | ok u =>
          simp only [FileResult.isSuccess]
          constructor
          · intro h
            exact absurd h (string_triple_ne_empty _ _ _ _ (by decide))
          · intro h
            cases h
      · simp only [ht, if_false, fallbackStep_outcome, fallbackStep_succAppend,
          FileResult.isSuccess]
        constructor
        · intro h
          exact absurd h (string_triple_ne_empty _ _ _ _ (by decide))
        · intro h
          cases h
  · simp only [hai, if_false, fallbackStep_outcome, fallbackStep_succAppend,
      FileResult.isSuccess]
    constructor
    · intro h
      exact absurd h (string_triple_ne_empty _ _ _ _ (by decide))
    · intro h
      cases h

/-- With AI disabled, the per-file step is exactly the fallback step. -/
theorem processFile_noAI (env : Env) (hai : env.useAI = false) (f : String) :
    processFile env f = fallbackStep env f [] := by
  simp [processFile, hai]

/-- Tagging each list element with a label and partitioning by a predicate
on the label preserves element counts. -/
theorem count_partition (l : List String) (g : String → FileResult) (f : String) :
    ((((l.map fun x => (x, g x)).filter fun p => p.2.isSuccess).map Prod.fst).count f)
      + ((((l.map fun x => (x, g x)).filter fun p => !p.2.isSuccess).map Prod.fst).count f)
      = l.count f := by
  induction l with
  | nil => rfl
  | cons x xs ih =>
    by_cases h : (g x).isSuccess <;>
      simp [h, List.count_cons] <;>
      omega

/-- The conflict detector performs exactly the one listing command. -/
theorem getConflictedFiles_events (env : Env) :
    (getConflictedFiles env).2 = [Event.exec GitCmd.listUnmerged] := by
  simp [getConflictedFiles, runCommand_events]

/-- Shared branch lemma: with zero conflicted files, the run is a complete
no-op: exit 0, the no-op log, and no external call besides the read-only
listing command. -/
theorem mainRun_no_conflicts (env : Env) (h : startupFailed env = false)
    (hempty : (getConflictedFiles env).1 = []) :
    mainRun env =
      { exitCode := 0, successComment := "", failureComment := "",
        outcomes := [], commitRun := false,
        trace := [Event.exec GitCmd.listUnmerged, Event.log "No conflicts found."] } := by
  unfold mainRun
  simp [h, hempty, getConflictedFiles_events]

/-- Shared branch lemma: the shape of a run that reaches the resolution
loop. -/
theorem mainRun_loop_eq (env : Env) (h : startupFailed env = false)
    (hne : ((getConflictedFiles env).1).isEmpty = false) :
    mainRun env =
      { exitCode := 0,
        successComment := successHeader
          ++ concatAll (((getConflictedFiles env).1).map fun f => (processFile env f).succAppend),
        failureComment := failureHeader
          ++ concatAll (((getConflictedFiles env).1).map fun f => (processFile env f).failAppend),
        outcomes := ((getConflictedFiles env).1).map fun f => (f, (processFile env f).outcome),
        commitRun := (successHeader
          ++ concatAll (((getConflictedFiles env).1).map fun f => (processFile env f).succAppend))
            != successHeader,
        trace := (getConflictedFiles env).2
          ++ (((getConflictedFiles env).1).map fun f => (processFile env f).events).flatten
          ++ (if ((successHeader
                ++ concatAll (((getConflictedFiles env).1).map fun f => (processFile env f).succAppend))
                  != successHeader) then (runCommand env .commit).2 else [])
          ++ postCommentToPR env ((successHeader
              ++ concatAll (((getConflictedFiles env).1).map fun f => (processFile env f).succAppend))
            ++ "\n" ++ (failureHeader
              ++ concatAll (((getConflictedFiles env).1).map fun f => (processFile env f).failAppend))) } := by
  unfold mainRun
  simp [h, hne]

/-- A concrete all-succeeding environment used to instantiate the theorems
at specific inputs. -/
def baseEnv : Env where
  useAI := false
  openaiKey := some "sk-key"
  githubToken := some "gh-token"
  execResult := fun _ => .ok ""
  readFileResult := fun _ => .ok "conflicted content"
  aiCompleteResult := fun _ => .ok "merged content"
  writeFileResult := fun _ _ => .ok ()
  postCommentResult := fun _ => .ok ()

/-! Claim theorems. -/

/-- C4: a run in which the conflict detector finds zero conflicted files
exits with status 0 after logging the no-op message, and performs no
commit, no completion-service call, and no version-control mutation — the
only external call in its trace is the read-only listing command. -/
theorem no_conflicts_run_is_noop (env : Env) (h : startupFailed env = false)
    (hempty : (getConflictedFiles env).1 = []) :
    mainRun env =
      { exitCode := 0, successComment := "", failureComment := "",
        outcomes := [], commitRun := false,
        trace := [Event.exec GitCmd.listUnmerged, Event.log "No conflicts found."] } :=
  mainRun_no_conflicts env h hempty

/-- Witness for C4 at the concrete environment whose listing command
returns empty output. -/
theorem no_conflicts_run_is_noop_witness :
    startupFailed baseEnv = false ∧ (getConflictedFiles baseEnv).1 = [] ∧
      mainRun baseEnv =
        { exitCode := 0, successComment := "", failureComment := "",
          outcomes := [], commitRun := false,
          trace := [Event.exec GitCmd.listUnmerged, Event.log "No conflicts found."] } :=
  ⟨rfl, by decide, no_conflicts_run_is_noop baseEnv rfl (by decide)⟩

/-- C6: with AI-assist enabled and the completion-service credential absent
(or empty, hence falsy), the run exits with status 1 and its trace is empty:
no repository mutation or any other external action happens. -/
theorem missing_key_is_fatal_startup (env : Env)
    (hai : env.useAI = true) (hkey : jsTruthyOpt env.openaiKey = false) :
    mainRun env =
      { exitCode := 1, successComment := "", failureComment := "",
        outcomes := [], commitRun := false, trace := [] } := by
  unfold mainRun
  simp [startupFailed, hai, hkey]

/-- Witness for C6 at a concrete environment with AI enabled and the key
unset. -/
theorem missing_key_is_fatal_startup_witness :
    ({ baseEnv with useAI := true, openaiKey := none } : Env).useAI = true ∧
      jsTruthyOpt ({ baseEnv with useAI := true, openaiKey := none } : Env).openaiKey = false ∧
      mainRun { baseEnv with useAI := true, openaiKey := none } =
        { exitCode := 1, successComment := "", failureComment := "",
          outcomes := [], commitRun := false, trace := [] } :=
  ⟨rfl, rfl, missing_key_is_fatal_startup { baseEnv with useAI := true, openaiKey := none } rfl rfl⟩

/-- The listing command either threw (non-zero exit) or produced empty
output after trimming. -/
def listFailedOrEmpty (env : Env) : Bool :=
  match env.execResult GitCmd.listUnmerged.render with
  | .error _ => true
  | .ok s => jsTrim s == ""

/-- C8: when the unmerged-paths listing command fails or produces empty
output, the conflict detector returns the empty sequence and the pipeline
exits 0 through the zero-conflicts no-op path, logging the no-op message. -/
theorem detector_failure_or_empty_is_noop (env : Env)
    (h : listFailedOrEmpty env = true) (hs : startupFailed env = false) :
    (getConflictedFiles env).1 = [] ∧ (mainRun env).exitCode = 0 ∧
      Event.log "No conflicts found." ∈ (mainRun env).trace := by
  have hempty : (getConflictedFiles env).1 = [] := by
    unfold listFailedOrEmpty at h
    unfold getConflictedFiles runCommand
    cases hr : env.execResult GitCmd.listUnmerged.render with
    | error e => simp [hr]
    | ok s =>
      rw [hr] at h
      have hts : jsTrim s = "" := by simpa using h
      simp [hr, hts, jsTruthy]
  rw [mainRun_no_conflicts env hs hempty]
  exact ⟨hempty, rfl, by simp⟩

/-- Witness for C8 at a concrete environment whose listing command throws. -/
theorem detector_failure_or_empty_is_noop_witness :
    listFailedOrEmpty { baseEnv with execResult := fun _ => .error "boom" } = true ∧
      startupFailed { baseEnv with execResult := fun _ => .error "boom" } = false ∧
      ((getConflictedFiles { baseEnv with execResult := fun _ => .error "boom" }).1 = [] ∧
        (mainRun { baseEnv with execResult := fun _ => .error "boom" }).exitCode = 0 ∧
        Event.log "No conflicts found."
          ∈ (mainRun { baseEnv with execResult := fun _ => .error "boom" }).trace) :=
  ⟨rfl, rfl,
    detector_failure_or_empty_is_noop { baseEnv with execResult := fun _ => .error "boom" } rfl rfl⟩

/-- C2: every conflicted path discovered at the start is accounted for
exactly once in the final report, counting multiplicity: its occurrences in
the success list and in the failure list together equal its occurrences in
the detected list, so it is never in both and never omitted. -/
theorem report_partitions_conflicts (env : Env) (f : String)
    (h : startupFailed env = false) :
    (successPaths (mainRun env)).count f + (failurePaths (mainRun env)).count f
      = ((getConflictedFiles env).1).count f := by
  by_cases hempty : (getConflictedFiles env).1 = []
  · rw [mainRun_no_conflicts env h hempty, hempty]
    rfl
  · have hne : ((getConflictedFiles env).1).isEmpty = false := by
      cases hl : (getConflictedFiles env).1 with
      | nil => exact absurd hl hempty
      | cons a l => rfl
    rw [mainRun_loop_eq env h hne]
    unfold successPaths failurePaths
    exact count_partition _ (fun x => (processFile env x).outcome) f

/-- A concrete run with two conflicted files where AI is enabled and the
write for the second file throws, so one file succeeds and one fails. -/
def envTwoFiles : Env :=
  { baseEnv with
    useAI := true,
    execResult := fun c =>
      if c = GitCmd.listUnmerged.render then .ok "a.txt\nb.txt" else .ok "",
    writeFileResult := fun p _ =>
      if p = "b.txt" then .error "disk full" else .ok () }

/-- Witness for C2 at a concrete run with two conflicted files, one of
which fails via a thrown write error. -/
theorem report_partitions_conflicts_witness :
    startupFailed envTwoFiles = false ∧
      (successPaths (mainRun envTwoFiles)).count "b.txt"
          + (failurePaths (mainRun envTwoFiles)).count "b.txt"
        = ((getConflictedFiles envTwoFiles).1).count "b.txt" :=
  ⟨rfl, report_partitions_conflicts envTwoFiles "b.txt" rfl⟩

/-- C3: a commit is run exactly when the success list of the report is
nonempty; in particular when zero files resolved successfully no commit is
made, regardless of files staged by failed attempts.  This holds for every
run (with zero conflicted files, and in the fatal-startup case, both sides
are false). -/
theorem commit_iff_success_nonempty (env : Env) :
    (mainRun env).commitRun = true ↔ successPaths (mainRun env) ≠ [] := by
  by_cases h : startupFailed env
  · unfold mainRun
    simp [h, successPaths]
  · have h0 : startupFailed env = false := by simpa using h
    by_cases hempty : (getConflictedFiles env).1 = []
    · rw [mainRun_no_conflicts env h0 hempty]
      simp [successPaths]
    · have hne : ((getConflictedFiles env).1).isEmpty = false := by
        cases hl : (getConflictedFiles env).1 with
        | nil => exact absurd hl hempty
        | cons a l => rfl
      rw [mainRun_loop_eq env h0 hne]
      unfold successPaths
      dsimp only
      simp only [bne_iff_ne, ne_eq]
      rw [string_append_eq_left_iff, concatAll_eq_empty_iff]
      apply not_congr
      rw [List.map_eq_nil_iff, List.filter_eq_nil_iff]
      constructor
      · intro hall p hp
        rcases List.mem_map.mp hp with ⟨f, hf, rfl⟩
        have h1 := hall _ (List.mem_map.mpr ⟨f, hf, rfl⟩)
        have h2 := (processFile_succAppend_empty_iff env f).mp h1
        simp [h2]
      · intro hall s hs
        rcases List.mem_map.mp hs with ⟨f, hf, rfl⟩
        apply (processFile_succAppend_empty_iff env f).mpr
        have h1 := hall _ (List.mem_map.mpr ⟨f, hf, rfl⟩)
        simpa using h1

/-- The reporter always posts exactly one comment followed by one log
line, whether or not the post succeeded. -/
theorem postCommentToPR_shape (env : Env) (b : String) :
    ∃ m, postCommentToPR env b = [Event.prComment b, Event.log m] := by
  unfold postCommentToPR
  cases env.postCommentResult b with
  | ok u => exact ⟨_, rfl⟩
  | error e => exact ⟨_, rfl⟩

/-- C5: with the AI-assist flag disabled, no completion-service request
appears anywhere in the run trace, and every conflicted file either
resolves via the fallback ours path or is recorded as a failure (in fact
every file is an ours success). -/
theorem ai_disabled_never_calls_completion (env : Env) (hai : env.useAI = false) :
    ((mainRun env).trace.all fun e => !e.isAiRequest) = true ∧
      ∀ p ∈ (mainRun env).outcomes,
        p.2 = FileResult.oursSuccess ∨ p.2.isSuccess = false := by
  have h0 : startupFailed env = false := by
    simp [startupFailed, hai]
  by_cases hempty : (getConflictedFiles env).1 = []
  · rw [mainRun_no_conflicts env h0 hempty]
    exact ⟨by decide, by intro p hp; cases hp⟩
  · have hne : ((getConflictedFiles env).1).isEmpty = false := by
      cases hl : (getConflictedFiles env).1 with
      | nil => exact absurd hl hempty
      | cons a l => rfl
    rw [mainRun_loop_eq env h0 hne]
    dsimp only
    constructor
    · rw [List.all_eq_true]
      intro e he
      simp only [List.mem_append] at he
      rcases he with ((he | he) | he) | he
      · rw [getConflictedFiles_events] at he
        simp only [List.mem_singleton] at he
        subst he
        rfl
      · rcases List.mem_flatten.mp he with ⟨l, hl, hel⟩
        rcases List.mem_map.mp hl with ⟨f, hf, rfl⟩
        rw [processFile_noAI env hai, fallbackStep_events] at hel
        simp only [List.nil_append, List.mem_cons, List.not_mem_nil, or_false] at hel
        rcases hel with rfl | rfl | rfl <;> rfl
      · split at he
        · rw [runCommand_events] at he
          simp only [List.mem_singleton] at he
          subst he
          rfl
        · cases he
      · rcases postCommentToPR_shape env _ with ⟨m, hm⟩
        rw [hm] at he
        simp only [List.mem_cons, List.not_mem_nil, or_false] at he
        rcases he with rfl | rfl <;> rfl
    · intro p hp
      rcases List.mem_map.mp hp with ⟨f, hf, rfl⟩
      left
      show (processFile env f).outcome = FileResult.oursSuccess
      rw [processFile_noAI env hai]
      exact fallbackStep_outcome env f []

/-- A concrete run with AI disabled and one conflicted file. -/
def envNoAI : Env :=
  { baseEnv with
    execResult := fun c =>
      if c = GitCmd.listUnmerged.render then .ok "a.txt" else .ok "" }

/-- Witness for C5 at a concrete AI-disabled run with one conflicted
file. -/
theorem ai_disabled_never_calls_completion_witness :
    envNoAI.useAI = false ∧
      (((mainRun envNoAI).trace.all fun e => !e.isAiRequest) = true ∧
        ∀ p ∈ (mainRun envNoAI).outcomes,
          p.2 = FileResult.oursSuccess ∨ p.2.isSuccess = false) :=
  ⟨rfl, ai_disabled_never_calls_completion envNoAI rfl⟩

/-- A concrete run with AI enabled, one conflicted file c.txt, and a
completion call that throws a network error. -/
def envAiThrows : Env :=
  { baseEnv with
    useAI := true,
    execResult := fun c =>
      if c = GitCmd.listUnmerged.render then .ok "c.txt" else .ok "",
    aiCompleteResult := fun _ => .error "network error" }

/-- C1 counterexample: AI-assist is enabled and the completion call throws
for the conflicted file c.txt, yet the run records c.txt in the failure
list, not as a fallback success, and never runs the fallback checkout-ours
command — refuting the claim that a thrown completion call leads to the
fallback accept-current-branch resolution. -/
theorem ai_throw_lands_in_failure_list :
    startupFailed envAiThrows = false ∧
      (getConflictedFiles envAiThrows).1 = ["c.txt"] ∧
      successPaths (mainRun envAiThrows) = [] ∧
      failurePaths (mainRun envAiThrows) = ["c.txt"] ∧
      (mainRun envAiThrows).outcomes = [("c.txt", FileResult.errorCaught "network error")] ∧
      ((mainRun envAiThrows).trace.all fun e => !e.isFallbackCmd) = true := by
  decide

/-- C1 amended: with AI-assist enabled and the file readable, the fallback
ours path is taken — and the file reported as a fallback success — exactly
in the case where the completion call returns an empty (falsy) completion
without throwing; a completion call that throws instead records the file as
a caught failure. -/
theorem fallback_taken_on_falsy_completion (env : Env) (file content : String)
    (hai : env.useAI = true)
    (hread : env.readFileResult file = Except.ok content) :
    (env.aiCompleteResult (aiPrompt content) = Except.ok "" →
      (processFile env file).outcome = FileResult.oursSuccess ∧
        Event.exec (GitCmd.checkoutOurs file) ∈ (processFile env file).events) ∧
    (∀ e, env.aiCompleteResult (aiPrompt content) = Except.error e →
      (processFile env file).outcome = FileResult.errorCaught e) := by
  constructor
  · intro hok
    have h1 : (resolveWithAI env file).1 = Except.ok "" := by
      simp [resolveWithAI, hread, hok]
    have h2 : processFile env file = fallbackStep env file (resolveWithAI env file).2 := by
      unfold processFile
      simp [hai, h1, jsTruthy]
    rw [h2]
    refine ⟨fallbackStep_outcome env file _, ?_⟩
    rw [fallbackStep_events]
    simp
  · intro e herr
    have h1 : (resolveWithAI env file).1 = Except.error e := by
      simp [resolveWithAI, hread, herr]
    unfold processFile
    simp [hai, h1]

/-- A concrete run with AI enabled where the completion call returns an
empty (falsy) completion without throwing. -/
def envAiFalsy : Env :=
  { baseEnv with
    useAI := true,
    execResult := fun c =>
      if c = GitCmd.listUnmerged.render then .ok "c.txt" else .ok "",
    aiCompleteResult := fun _ => .ok "" }

/-- Witness for the amended C1 at a concrete environment whose completion
call returns falsy text. -/
theorem fallback_taken_on_falsy_completion_witness :
    (processFile envAiFalsy "c.txt").outcome = FileResult.oursSuccess ∧
      Event.exec (GitCmd.checkoutOurs "c.txt") ∈ (processFile envAiFalsy "c.txt").events :=
  (fallback_taken_on_falsy_completion envAiFalsy "c.txt" "conflicted content" rfl rfl).1 rfl

/-- C7: the run outcome is independent of the review-platform posting
oracle — exit code, outcomes, commit decision and both report sections are
unchanged whether posting succeeds or fails — and a failed post is caught,
recorded by a log event, and followed by no further action. -/
theorem post_failure_is_best_effort (env : Env) (p q : String → Except String Unit) :
    ((mainRun { env with postCommentResult := p }).exitCode
        = (mainRun { env with postCommentResult := q }).exitCode
      ∧ (mainRun { env with postCommentResult := p }).outcomes
        = (mainRun { env with postCommentResult := q }).outcomes
      ∧ (mainRun { env with postCommentResult := p }).commitRun
        = (mainRun { env with postCommentResult := q }).commitRun
      ∧ (mainRun { env with postCommentResult := p }).successComment
        = (mainRun { env with postCommentResult := q }).successComment
      ∧ (mainRun { env with postCommentResult := p }).failureComment
        = (mainRun { env with postCommentResult := q }).failureComment)
    ∧ ∀ b e, env.postCommentResult b = Except.error e →
        postCommentToPR env b
          = [Event.prComment b, Event.log ("Error postig comment to PR: " ++ e)] := by
  constructor
  · have hsf : ∀ r, startupFailed { env with postCommentResult := r } = startupFailed env :=
      fun r => rfl
    have hgc : ∀ r, getConflictedFiles { env with postCommentResult := r }
        = getConflictedFiles env := fun r => rfl
    have hpf : ∀ (r : String → Except String Unit) f,
        processFile { env with postCommentResult := r } f = processFile env f :=
      fun r f => rfl
    have hrc : ∀ (r : String → Except String Unit) c,
        runCommand { env with postCommentResult := r } c = runCommand env c :=
      fun r c => rfl
    unfold mainRun
    simp only [hsf, hgc, hpf, hrc]
    by_cases h : startupFailed env
    · simp [h]
    · simp only [h, Bool.false_eq_true, if_false]
      by_cases hne : ((getConflictedFiles env).1).isEmpty
      · simp [hne]
      · simp [hne]
  · intro b e herr
    unfold postCommentToPR
    rw [herr]

/-- A concrete run with one conflicted file whose report post throws. -/
def envPostFails : Env :=
  { baseEnv with
    execResult := fun c =>
      if c = GitCmd.listUnmerged.render then .ok "a.txt" else .ok "",
    postCommentResult := fun _ => .error "HTTP 500" }

/-- Witness for C7 at a concrete environment whose post always throws. -/
theorem post_failure_is_best_effort_witness :
    postCommentToPR envPostFails "report body"
      = [Event.prComment "report body",
        Event.log ("Error postig comment to PR: " ++ "HTTP 500")] :=
  (post_failure_is_best_effort envPostFails
      (fun _ => .error "HTTP 500") (fun _ => .ok ())).2 "report body" "HTTP 500" rfl

/-- A concrete environment in which a conflicted file a.txt would be
reported by the listing command, were it ever run. -/
def envExtra : Env :=
  { baseEnv with
    execResult := fun c =>
      if c = GitCmd.listUnmerged.render then .ok "a.txt" else .ok "" }

/-- C9 counterexample: even in an environment where a conflicted file
a.txt is available, the extra variant makes no external call at all — the
conflict listing never runs, so the resolution loop and its
report-accumulation step never execute — and the error it exits 1 with is
the startup ReferenceError for the undeclared OPENAI_API_KEY (line 90),
not the undeclared-commentBody ReferenceError the claim attributes to the
report-accumulation step. -/
theorem extra_report_step_never_reached :
    (extraMain envExtra).exitCode = 1 ∧
      (extraMain envExtra).err = some extraStartupErr ∧
      (extraMain envExtra).err ≠ some refErrMsg ∧
      (extraMain envExtra).trace = [] := by
  refine ⟨rfl, rfl, ?_, rfl⟩
  decide

/-- C9 amended: every run of the non-AI-report variant exits with status 1
and the ReferenceError thrown by its first statement — the credential
check at line 90 reads OPENAI_API_KEY, which resolve-conflict.js never
declares — and its trace is empty: the run aborts before any
version-control or network call, so the report-accumulation step (whose
`commentBody +=` references another undeclared variable) is never
executed, no commit is made, no report is posted, and no fallback
checkout-ours command is run (the file contains no fallback path at
all). -/
theorem extra_variant_aborts_at_startup (env : Env) :
    extraMain env = { exitCode := 1, err := some extraStartupErr, trace := [] } :=
  rfl

/-- C10: the fallback resolver returns true for every environment and every
path — it can never return false, because failures of the underlying
checkout-ours and add commands are swallowed inside runCommand — and
consequently the failure side of a report can only be populated by caught
exceptions: every non-success outcome of any run is an errorCaught
outcome. -/
theorem resolveManually_never_fails (env : Env) (f : String) :
    (resolveManually env f).1 = true ∧
      ∀ p ∈ (mainRun env).outcomes, p.2.isSuccess = false →
        ∃ e, p.2 = FileResult.errorCaught e := by
  refine ⟨rfl, ?_⟩
  intro p hp hfail
  by_cases h : startupFailed env
  · unfold mainRun at hp
    simp [h] at hp
  · have h0 : startupFailed env = false := by simpa using h
    by_cases hempty : (getConflictedFiles env).1 = []
    · rw [mainRun_no_conflicts env h0 hempty] at hp
      cases hp
    · have hne : ((getConflictedFiles env).1).isEmpty = false := by
        cases hl : (getConflictedFiles env).1 with
        | nil => exact absurd hl hempty
        | cons a l => rfl
      rw [mainRun_loop_eq env h0 hne] at hp
      dsimp only at hp
      rcases List.mem_map.mp hp with ⟨g, hg, rfl⟩
      rcases processFile_outcome_cases env g with h1 | h1 | ⟨e, h1⟩
      · rw [show ((g, (processFile env g).outcome)).2 = (processFile env g).outcome from rfl,
          h1] at hfail
        exact absurd hfail (by decide)
      · rw [show ((g, (processFile env g).outcome)).2 = (processFile env g).outcome from rfl,
          h1] at hfail
        exact absurd hfail (by decide)
      · exact ⟨e, h1⟩

/-- Witness for C10 at the concrete two-file run in which b.txt fails via a
thrown write error. -/
theorem resolveManually_never_fails_witness :
    ∃ e, (("b.txt", FileResult.errorCaught "disk full") : String × FileResult).2
        = FileResult.errorCaught e :=
  (resolveManually_never_fails envTwoFiles "b.txt").2
    ("b.txt", FileResult.errorCaught "disk full") (by decide) (by decide)
